import Mathlib

/-!
Verification of the dag-executor repository's script layer against its
natural-language specification.

The Python scripts under `src/scripts/ci-helpers/` are embedded as total
Lean functions over explicit document types; a Python `assert` failure,
`KeyError`, `StopIteration` or `ZeroDivisionError` becomes an explicit
`PyErr` value, and the printed success message is the `.ok` payload.
Machine floats are modelled as rationals (`ℚ`): every claim settled here
is about control flow, guards and structure, never about rounding.

The review-automation core (resolver / poller / severity classifier) is
described by the spec but its code is not part of `src/`; those
components are modelled from the spec's words, and each such definition
says so in its doc comment.
-/

namespace DagExec

/-- The observable ways a validation script can terminate abnormally:
a failed `assert`, a missing dictionary key, an exhausted `next(...)`
generator, or an arithmetic division by zero. -/
inductive PyErr where
  | assertion (msg : String)
  | keyError (key : String)
  | stopIteration
  | zeroDivision
  | overflowError
deriving DecidableEq, Repr

instance {ε α : Type} [DecidableEq ε] [DecidableEq α] : DecidableEq (Except ε α) := fun a b =>
  match a, b with
  | .error e₁, .error e₂ =>
    if h : e₁ = e₂ then isTrue (by rw [h]) else isFalse (by intro hh; cases hh; exact h rfl)
  | .error _, .ok _ => isFalse (by intro hh; cases hh)
  | .ok _, .error _ => isFalse (by intro hh; cases hh)
  | .ok a₁, .ok a₂ =>
    if h : a₁ = a₂ then isTrue (by rw [h]) else isFalse (by intro hh; cases hh; exact h rfl)

/-- Python `d[key]`: yields the value when present, `KeyError` otherwise. -/
def getOpt {α : Type} (o : Option α) (key : String) : Except PyErr α :=
  match o with
  | none => .error (.keyError key)
  | some a => .ok a

/-- Python `assert cond, msg`. -/
def pyAssert (b : Bool) (msg : String) : Except PyErr Unit :=
  if b then .ok () else .error (.assertion msg)

/-! ## Model of `scripts/ci-helpers/validate_writes_eval.py`

The JSON documents this script inspects are flat: a `nodes` array whose
elements carry `node_id`, `op` and a `writes_eval` object with `kind`
and `keys`.  Each JSON field that the script tests for presence is an
`Option` here. -/

/-- The `writes_eval` object of a node (`kind` / `keys` fields). -/
structure WritesEval where
  kind : Option String
  keys : Option (List Int)
deriving DecidableEq, Repr

/-- One element of the `nodes` array as read by `validate_writes_eval.py`. -/
structure NodeW where
  node_id : Option String
  op : Option String
  writes_eval : Option WritesEval
deriving DecidableEq, Repr

/-- The input document of `validate_writes_eval.py`. -/
structure WritesEvalDoc where
  nodes : Option (List NodeW)
deriving DecidableEq, Repr

/-- The per-node body of the first loop of `validate_writes_eval.py`
(lines 15-21): reads `node["node_id"]`, then asserts `writes_eval`
presence, `kind` presence, `keys` presence, and that `kind` is one of
`Exact`/`May`/`Unknown`.  A missing `node_id` is a `KeyError`; every
other failure is an `AssertionError`, in source order. -/
def checkNodeW (n : NodeW) : Except PyErr Unit := do
  let nid ← getOpt n.node_id "node_id"
  match n.writes_eval with
  | none => .error (.assertion ("Node " ++ nid ++ " missing writes_eval"))
  | some we =>
    match we.kind with
    | none => .error (.assertion "writes_eval missing kind")
    | some k =>
      match we.keys with
      | none => .error (.assertion "writes_eval missing keys")
      | some _ => pyAssert (k == "Exact" || k == "May" || k == "Unknown") ("Invalid kind: " ++ k)

/-- Python `next(n for n in nodes if n["op"] == target)`: walks the list,
propagating the `KeyError` of a node with no `op` field, and raising
`StopIteration` when no node matches. -/
def findNodeByOp (target : String) : List NodeW → Except PyErr NodeW
  | [] => .error .stopIteration
  | n :: ns => do
    let o ← getOpt n.op "op"
    if o == target then .ok n else findNodeByOp target ns

/-- Python `[n for n in nodes if n["op"] == "core::vm"]`: list
comprehension whose `n["op"]` access can raise `KeyError`. -/
def filterNodesByOp (target : String) : List NodeW → Except PyErr (List NodeW)
  | [] => .ok []
  | n :: ns => do
    let o ← getOpt n.op "op"
    let rest ← filterNodesByOp target ns
    if o == target then .ok (n :: rest) else .ok rest

/-- Python `node["writes_eval"]["kind"]` after the first loop has run. -/
def nodeKind (n : NodeW) : Except PyErr String := do
  let we ← getOpt n.writes_eval "writes_eval"
  getOpt we.kind "kind"

/-- Python `node["writes_eval"]["keys"]` after the first loop has run. -/
def nodeKeys (n : NodeW) : Except PyErr (List Int) := do
  let we ← getOpt n.writes_eval "writes_eval"
  getOpt we.keys "keys"

/-- The later per-vm-node checks of `validate_writes_eval.py`
(lines 32-34): `kind == "Exact"` and `keys == [2001]`. -/
def checkVmNodeW (n : NodeW) : Except PyErr Unit := do
  let k ← nodeKind n
  pyAssert (k == "Exact") "assert vm_node kind Exact"
  let ks ← nodeKeys n
  pyAssert (ks == [2001]) "assert vm_node keys final_score"

/-- `validate_writes_eval.py`, whole module, as a state-passing function:
the second component of the `.ok` result is the document after the run
(the script never assigns into `data`, so it is returned unchanged).
The first component is the printed success message. -/
def runWritesEvalS (d : WritesEvalDoc) : Except PyErr (String × WritesEvalDoc) := do
  match d.nodes with
  | none => .error (.assertion "Missing nodes array")
  | some nodes => do
    pyAssert (nodes.length == 6) ("Expected 6 nodes, got " ++ toString nodes.length)
    nodes.forM checkNodeW
    let follow ← findNodeByOp "core::follow" nodes
    let fk ← nodeKind follow
    pyAssert (fk == "Exact") "assert follow kind Exact"
    let fks ← nodeKeys follow
    pyAssert (fks == [3001]) "assert follow keys country"
    let vms ← filterNodesByOp "core::vm" nodes
    pyAssert (vms.length == 2) ("Expected 2 vm nodes, got " ++ toString vms.length)
    vms.forM checkVmNodeW
    let filt ← findNodeByOp "core::filter" nodes
    let flk ← nodeKind filt
    pyAssert (flk == "Exact") "assert filter kind Exact"
    let flks ← nodeKeys filt
    pyAssert (flks == []) "assert filter keys empty"
    .ok ("writes_eval validation passed", d)

/-- The pure outcome of `validate_writes_eval.py` (message only). -/
def runWritesEval (d : WritesEvalDoc) : Except PyErr String :=
  (runWritesEvalS d).map Prod.fst

/-! ## Model of `scripts/ci-helpers/validate_schema_deltas.py` -/

/-- One element of the `schema_deltas` array. -/
structure Delta where
  node_id : Option String
  in_keys_union : Option (List Int)
  out_keys : Option (List Int)
  new_keys : Option (List Int)
  removed_keys : Option (List Int)
deriving DecidableEq, Repr

/-- The input document of `validate_schema_deltas.py`. -/
structure DeltasDoc where
  schema_deltas : Option (List Delta)
deriving DecidableEq, Repr

/-- The field-presence loop body of `validate_schema_deltas.py`
(lines 15-20), in source order. -/
def checkDelta (d : Delta) : Except PyErr Unit := do
  pyAssert d.node_id.isSome "Missing node_id"
  pyAssert d.in_keys_union.isSome "Missing in_keys_union"
  pyAssert d.out_keys.isSome "Missing out_keys"
  pyAssert d.new_keys.isSome "Missing new_keys"
  pyAssert d.removed_keys.isSome "Missing removed_keys"

/-- Python `next(d for d in deltas if d["node_id"] == target)`. -/
def findDelta (target : String) : List Delta → Except PyErr Delta
  | [] => .error .stopIteration
  | d :: ds => do
    let nid ← getOpt d.node_id "node_id"
    if nid == target then .ok d else findDelta target ds

/-- `validate_schema_deltas.py`, whole module, state-passing: the `.ok`
payload carries the printed message and the (unmodified) document. -/
def runSchemaDeltasS (doc : DeltasDoc) : Except PyErr (String × DeltasDoc) := do
  match doc.schema_deltas with
  | none => .error (.assertion "Missing schema_deltas array")
  | some deltas => do
    pyAssert (deltas.length == 5) ("Expected 5 schema deltas, got " ++ toString deltas.length)
    deltas.forM checkDelta
    let viewer ← findDelta "n0" deltas
    let vnew ← getOpt viewer.new_keys "new_keys"
    pyAssert (vnew.contains 1) "viewer should add id (1)"
    let follow ← findDelta "n1" deltas
    let fnew ← getOpt follow.new_keys "new_keys"
    pyAssert (fnew.contains 3001) "follow should add country (3001)"
    let vm ← findDelta "n2" deltas
    let vmnew ← getOpt vm.new_keys "new_keys"
    pyAssert (vmnew == [2001]) "vm should add final_score (2001)"
    let filt ← findDelta "n3" deltas
    let filtnew ← getOpt filt.new_keys "new_keys"
    pyAssert (filtnew == []) "filter should not add columns"
    let filtrem ← getOpt filt.removed_keys "removed_keys"
    pyAssert (filtrem == []) "filter should not remove columns"
    let take ← findDelta "n4" deltas
    let takenew ← getOpt take.new_keys "new_keys"
    pyAssert (takenew == []) "take should not add columns"
    let takerem ← getOpt take.removed_keys "removed_keys"
    pyAssert (takerem == []) "take should not remove columns"
    .ok ("schema_deltas validation passed", doc)

/-- The pure outcome of `validate_schema_deltas.py` (message only). -/
def runSchemaDeltas (d : DeltasDoc) : Except PyErr String :=
  (runSchemaDeltasS d).map Prod.fst

/-! ## Model of `scripts/ci-helpers/validate_ast_expr.py` and
`scripts/ci-helpers/validate_mixed_expr.py`

Expressions in the compiled-plan artifact are JSON trees; every field
the scripts can access (`op`, `a`, `b`, `key_id`, `value`) is optional.
The float literal `0.2` compared by the script is carried as the
rational `mkRat 1 5`. -/

/-- A compiled-plan expression node with optional JSON fields. -/
inductive ExprJ where
  | mk (op : Option String) (a : Option ExprJ) (b : Option ExprJ)
       (key_id : Option Int) (value : Option ℚ)

/-- The `op` field of an expression. -/
def ExprJ.op : ExprJ → Option String
  | .mk o _ _ _ _ => o

/-- The `a` (left operand) field of an expression. -/
def ExprJ.a : ExprJ → Option ExprJ
  | .mk _ x _ _ _ => x

/-- The `b` (right operand) field of an expression. -/
def ExprJ.b : ExprJ → Option ExprJ
  | .mk _ _ x _ _ => x

/-- The `key_id` field of an expression. -/
def ExprJ.key_id : ExprJ → Option Int
  | .mk _ _ _ x _ => x

/-- The `value` field of an expression. -/
def ExprJ.value : ExprJ → Option ℚ
  | .mk _ _ _ _ x => x

/-- The `params` object of a plan node. -/
structure ParamsJ where
  expr_id : Option String
deriving DecidableEq, Repr

/-- One element of the plan's `nodes` array as read by the two
AST-expression scripts. -/
structure NodeJ where
  op : Option String
  params : Option ParamsJ
deriving DecidableEq, Repr

/-- The compiled-plan document: `expr_table` is a JSON object modelled
as an association list keyed by expression identifiers. -/
structure PlanDoc where
  expr_table : Option (List (String × ExprJ))
  nodes : Option (List NodeJ)

/-- Python `plan["expr_table"][eid]` / `eid in plan["expr_table"]`:
lookup in the expression table. -/
def tblLookup (t : List (String × ExprJ)) (k : String) : Option ExprJ :=
  (t.find? (fun p => p.1 == k)).map Prod.snd

/-- Python `next((n for n in plan["nodes"] if n["op"] == "core::vm"), None)`:
the default swallows only `StopIteration`; a `KeyError` on `n["op"]`
still propagates. -/
def findVmOpt : List NodeJ → Except PyErr (Option NodeJ)
  | [] => .ok none
  | n :: ns => do
    let o ← getOpt n.op "op"
    if o == "core::vm" then .ok (some n) else findVmOpt ns

/-- Python `[n for n in plan["nodes"] if n["op"] == "core::vm"]`. -/
def filterVm : List NodeJ → Except PyErr (List NodeJ)
  | [] => .ok []
  | n :: ns => do
    let o ← getOpt n.op "op"
    let rest ← filterVm ns
    if o == "core::vm" then .ok (n :: rest) else .ok rest

/-- Python `[n["params"]["expr_id"] for n in vm_nodes]`. -/
def collectEids : List NodeJ → Except PyErr (List String)
  | [] => .ok []
  | n :: ns => do
    let ps ← getOpt n.params "params"
    let eid ← getOpt ps.expr_id "expr_id"
    let rest ← collectEids ns
    .ok (eid :: rest)

/-- `validate_ast_expr.py`, whole module: asserts a non-empty
`expr_table`, locates the first `core::vm` node, follows its
`params.expr_id` into the table and checks the expression's shape
`Key.id * coalesce(P.weight, 0.2)`. -/
def runAstExpr (p : PlanDoc) : Except PyErr String := do
  match p.expr_table with
  | none => .error (.assertion "Missing expr_table")
  | some tbl => do
    pyAssert (1 ≤ tbl.length) "expr_table should have at least 1 expression"
    let nodes ← getOpt p.nodes "nodes"
    let vm? ← findVmOpt nodes
    match vm? with
    | none => .error (.assertion "Missing vm node")
    | some vm => do
      let ps ← getOpt vm.params "params"
      let eid ← getOpt ps.expr_id "expr_id"
      pyAssert ("e".data.isPrefixOf eid.data) ("expr_id should start with e, got " ++ eid)
      pyAssert (tblLookup tbl eid).isSome ("expr_id " ++ eid ++ " not found in expr_table")
      let expr ← getOpt (tblLookup tbl eid) eid
      let eop ← getOpt expr.op "op"
      pyAssert (eop == "mul") ("Expected mul op, got " ++ eop)
      let ea ← getOpt expr.a "a"
      let eaop ← getOpt ea.op "op"
      pyAssert (eaop == "key_ref") "Left operand should be key_ref"
      let eakey ← getOpt ea.key_id "key_id"
      pyAssert (eakey == 1) "Left operand should be Key.id (id=1)"
      let eb ← getOpt expr.b "b"
      let ebop ← getOpt eb.op "op"
      pyAssert (ebop == "coalesce") "Right operand should be coalesce"
      let eba ← getOpt eb.a "a"
      let ebaop ← getOpt eba.op "op"
      pyAssert (ebaop == "param_ref") "coalesce first arg should be param_ref"
      let ebb ← getOpt eb.b "b"
      let ebbop ← getOpt ebb.op "op"
      pyAssert (ebbop == "const_number") "coalesce second arg should be const"
      let ebbv ← getOpt ebb.value "value"
      pyAssert (ebbv == mkRat 1 5) "coalesce fallback should be 0.2"
      .ok "Natural expression compilation validated"

/-- `validate_mixed_expr.py`, whole module: asserts an `expr_table` of
at least two entries, exactly two `core::vm` nodes, and that every vm
node's `expr_id` resolves to a table entry that has an `op` field. -/
def runMixedExpr (p : PlanDoc) : Except PyErr String := do
  match p.expr_table with
  | none => .error (.assertion "Missing expr_table")
  | some tbl => do
    pyAssert (2 ≤ tbl.length) ("Expected at least 2 expressions, got " ++ toString tbl.length)
    let nodes ← getOpt p.nodes "nodes"
    let vms ← filterVm nodes
    pyAssert (vms.length == 2) ("Expected 2 vm nodes, got " ++ toString vms.length)
    let eids ← collectEids vms
    eids.forM (fun eid => pyAssert (tblLookup tbl eid).isSome ("expr_id " ++ eid ++ " not in expr_table"))
    eids.forM (fun eid => do
      let expr ← getOpt (tblLookup tbl eid) eid
      pyAssert expr.op.isSome ("Expression " ++ eid ++ " missing op"))
    .ok "Mixed expression styles validated: both natural and builder-style work together"

/-! ## Model of `scripts/plot_perf_sweep.py` helper functions

Python floats are modelled as `PyFloatVal`: a finite rational, a signed
infinity, or NaN.  `pyFloat` models CPython's `float(str)` conversion
(optional surrounding whitespace, optional sign, `inf`/`infinity`/`nan`,
or a decimal literal with optional fraction and exponent; digit-group
underscores are not modelled).  The claims proved below never depend on
which well-formed numerals `pyFloat` accepts, only on how the script
behaves when conversion fails or yields a special value. -/

/-- The result of a successful CPython `float(str)` conversion. -/
inductive PyFloatVal where
  | finite (q : ℚ)
  | infinite (neg : Bool)
  | nan
deriving DecidableEq, Repr

/-- ASCII decimal digit test. -/
def isDigitCh (c : Char) : Bool := '0' ≤ c && c ≤ '9'

/-- Numeric value of a digit list (most significant first). -/
def digitsVal (ds : List Char) : Nat :=
  ds.foldl (fun acc c => 10 * acc + (c.toNat - '0'.toNat)) 0

/-- Splits the longest leading run of digits off a character list. -/
def takeDigits (cs : List Char) : List Char × List Char :=
  match cs with
  | [] => ([], [])
  | c :: rest =>
    if isDigitCh c then
      let (ds, rs) := takeDigits rest
      (c :: ds, rs)
    else ([], cs)

/-- Mantissa value of integer-part and fraction-part digit lists. -/
def mantissaVal (ip fp : List Char) : ℚ :=
  (digitsVal ip : ℚ) + (digitsVal fp : ℚ) / ((10 : ℚ) ^ fp.length)

/-- Applies an optional decimal exponent suffix `e[sign]digits` to a
mantissa (input already lowercased). -/
def applyExp (m : ℚ) : List Char → Option ℚ
  | [] => some m
  | 'e' :: r =>
    let (sgn, r2) :=
      match r with
      | '+' :: rr => ((1 : Int), rr)
      | '-' :: rr => ((-1 : Int), rr)
      | rr => ((1 : Int), rr)
    let (ed, r3) := takeDigits r2
    if ed.isEmpty || !r3.isEmpty then none
    else some (m * (10 : ℚ) ^ (sgn * (digitsVal ed : Int)))
  | _ => none

/-- Parses `digits [. digits] [e [sign] digits]` with at least one
digit in the integer or fraction part; returns the rational value. -/
def parseDecimal (cs : List Char) : Option ℚ :=
  let (ip, rest1) := takeDigits cs
  match rest1 with
  | '.' :: r =>
    let (fp, rest2) := takeDigits r
    if ip.isEmpty && fp.isEmpty then none
    else applyExp (mantissaVal ip fp) rest2
  | _ =>
    if ip.isEmpty then none
    else applyExp (mantissaVal ip []) rest1

/-- Core of the CPython `float(str)` model after whitespace stripping
and sign handling. -/
def pyFloatBody (cs : List Char) (neg : Bool) : Option PyFloatVal :=
  let low := cs.map Char.toLower
  if low == "inf".data || low == "infinity".data then some (.infinite neg)
  else if low == "nan".data then some .nan
  else
    match parseDecimal low with
    | some q => some (.finite (if neg then -q else q))
    | none => none

/-- ASCII whitespace test used when stripping a numeral string. -/
def isWsCh (c : Char) : Bool :=
  c == ' ' || c == '\t' || c == '\n' || c == '\r'

/-- Strips leading and trailing whitespace from a character list. -/
def stripWs (cs : List Char) : List Char :=
  ((cs.dropWhile isWsCh).reverse.dropWhile isWsCh).reverse

/-- Modelled CPython `float(str)`: `none` is a `ValueError`. -/
def pyFloat (s : String) : Option PyFloatVal :=
  match stripWs s.data with
  | '+' :: r => pyFloatBody r false
  | '-' :: r => pyFloatBody r true
  | r => pyFloatBody r false

/-- `parse_float` from `plot_perf_sweep.py` (lines 29-37): empty string
and `"null"` short-circuit to `None`; a conversion failure is caught
and becomes `None`. -/
def parse_float (s : String) : Option PyFloatVal :=
  if s.isEmpty || s == "null" then none
  else pyFloat s

/-- Truncation toward zero, as Python `int(float)` on a finite value. -/
def ratTruncate (q : ℚ) : Int :=
  if q < 0 then ⌈q⌉ else ⌊q⌋

/-- `parse_int` from `plot_perf_sweep.py` (lines 39-47): `int(float(s))`
with `ValueError`/`TypeError` caught.  `int()` of an infinity raises
`OverflowError`, which the script does not catch; `int()` of NaN raises
`ValueError`, which it does. -/
def parse_int (s : String) : Except PyErr (Option Int) :=
  if s.isEmpty || s == "null" then .ok none
  else
    match pyFloat s with
    | none => .ok none
    | some (.finite q) => .ok (some (ratTruncate q))
    | some (.infinite _) => .error .overflowError
    | some .nan => .ok none

/-- `statistics.median` on a non-empty list: sort ascending, take the
middle element when the length is odd, the mean of the two middle
elements when it is even. -/
def statMedian (xs : List ℚ) : ℚ :=
  let sorted := xs.mergeSort (fun a b => a ≤ b)
  let n := sorted.length
  if n % 2 == 1 then sorted.getD (n / 2) 0
  else (sorted.getD (n / 2 - 1) 0 + sorted.getD (n / 2) 0) / 2

/-- `median` from `plot_perf_sweep.py` (lines 23-26): drop `None`
entries, return `None` on an empty remainder, else the statistical
median. -/
def median (xs : List (Option ℚ)) : Option ℚ :=
  let v := xs.filterMap id
  if v.isEmpty then none else some (statMedian v)

/-! ## Model of `detect_knee` (`plot_perf_sweep.py` lines 49-69)

The loop `for i in range(len(conc) - 1)` walks aligned triples of
lists.  The embedding recurses down the three lists in lockstep, which
agrees with the source whenever the lists have equal length (the only
case the theorems below consider; on ragged input the source raises
`IndexError` instead).  `qps_gain = (qps[i+1] - qps[i]) / qps[i] * 100`
divides by `qps[i]` with no zero guard, so that division is made
explicit as a `ZeroDivisionError`. -/

/-- `detect_knee`: scans index pairs in order; a pair whose values fail
the `None`/zero guards is skipped; a surviving pair with `qps[i] == 0`
raises `ZeroDivisionError`; a surviving pair with QPS gain below 5%
and p99 ratio above 1.5 returns `conc[i]`. -/
def detect_knee : List Int → List (Option ℚ) → List (Option ℚ) → Except PyErr (Option Int)
  | c0 :: cs1, q0? :: qs1, p0? :: ps1 =>
    match cs1, qs1, ps1 with
    | _ :: _, q1? :: _, p1? :: _ =>
      match q0?, q1?, p0?, p1? with
      | some q0, some q1, some p0, some p1 =>
        if p0 = 0 then detect_knee cs1 qs1 ps1
        else if q0 = 0 then .error .zeroDivision
        else if (q1 - q0) / q0 * 100 < 5 ∧ p1 / p0 > 3 / 2 then .ok (some c0)
        else detect_knee cs1 qs1 ps1
      | _, _, _, _ => detect_knee cs1 qs1 ps1
    | _, _, _ => .ok none
  | _, _, _ => .ok none

/-- What one loop iteration of `detect_knee` does at index `i`. -/
inductive KneeStep where
  | skip
  | raise
  | found (c : Int)
deriving DecidableEq, Repr

/-- Index-based classification of iteration `i` of `detect_knee`'s
loop: `skip` when a guard fails (or `i` is out of range), `raise` when
the guards pass but `qps[i] = 0`, `found conc[i]` when the knee
conditions hold. -/
def kneeStep (cs : List Int) (qs ps : List (Option ℚ)) (i : Nat) : KneeStep :=
  match cs[i]?, cs[i+1]?, qs[i]?, qs[i+1]?, ps[i]?, ps[i+1]? with
  | some c0, some _, some (some q0), some (some q1), some (some p0), some (some p1) =>
    if p0 = 0 then .skip
    else if q0 = 0 then .raise
    else if (q1 - q0) / q0 * 100 < 5 ∧ p1 / p0 > 3 / 2 then .found c0
    else .skip
  | _, _, _, _, _, _ => .skip

/-- Specification relation for `detect_knee`: the outcome is decided by
the first loop iteration that does not skip. -/
def kneeOutcome (cs : List Int) (qs ps : List (Option ℚ)) :
    Except PyErr (Option Int) → Prop
  | .ok none => ∀ i, kneeStep cs qs ps i = .skip
  | .ok (some c) => ∃ i, kneeStep cs qs ps i = .found c ∧ ∀ j < i, kneeStep cs qs ps j = .skip
  | .error e => e = .zeroDivision ∧ ∃ i, kneeStep cs qs ps i = .raise ∧ ∀ j < i, kneeStep cs qs ps j = .skip

/-! ## Effect signatures of the collaborator scripts (spec §1, §6)

Spec §1 names three families of out-of-scope collaborators — CSV-driven
plotting (`scripts/plot_perf_sweep.py`), JSON schema assertions (the
four `scripts/ci-helpers/validate_*.py` scripts), and chart generation
(`benchmarks/async_comparative/gen_positioning.py`) — that "consume
files on disk and emit images/text".  The records below transcribe each
script's data sources and emitted artifacts from its source text: every
`open(...)`/hard-coded constant feeding the computation, and every
`savefig`/file-write/`print`. -/

/-- Where a piece of a script's input data comes from: a file path
supplied by the caller, or a constant embedded in the script text. -/
inductive DataSource where
  | callerFile (arg : String)
  | hardcoded (name : String)
deriving DecidableEq, Repr

/-- The kind of artifact a script emits. -/
inductive Artifact where
  | imageFile (name : String)
  | textOutput (name : String)
  | otherArtifact (name : String)
deriving DecidableEq, Repr

/-- A script's observable input/output signature. -/
structure ScriptEffects where
  name : String
  dataSources : List DataSource
  outputs : List Artifact
deriving DecidableEq, Repr

/-- `scripts/plot_perf_sweep.py`: reads the CSV named by `--in`
(line 91), writes three PNG charts, a text summary and progress text on
stdout. -/
def plotPerfSweepEffects : ScriptEffects :=
  ⟨"plot_perf_sweep.py",
   [.callerFile "--in"],
   [.imageFile "qps_vs_concurrency.png",
    .imageFile "latency_vs_concurrency.png",
    .imageFile "qps_vs_p99.png",
    .textOutput "knee_summary.txt",
    .textOutput "stdout"]⟩

/-- `benchmarks/async_comparative/gen_positioning.py`: its chart data
is the `frameworks`, `colors` and `offsets` constants embedded in the
script (lines 11-25, 36-42); it reads no input file, and writes an SVG,
a PNG and progress text to a path hard-coded at line 76. -/
def genPositioningEffects : ScriptEffects :=
  ⟨"gen_positioning.py",
   [.hardcoded "frameworks", .hardcoded "colors", .hardcoded "offsets"],
   [.imageFile "async_positioning.svg",
    .imageFile "async_positioning.png",
    .textOutput "stdout"]⟩

/-- `scripts/ci-helpers/validate_writes_eval.py`: reads the JSON file
named by `sys.argv[1]` (line 6) and prints its verdict to stdout. -/
def validateWritesEvalEffects : ScriptEffects :=
  ⟨"validate_writes_eval.py", [.callerFile "sys.argv[1]"], [.textOutput "stdout"]⟩

/-- `scripts/ci-helpers/validate_ast_expr.py`: reads the JSON file
named by `sys.argv[1]` (line 6) and prints its verdict to stdout. -/
def validateAstExprEffects : ScriptEffects :=
  ⟨"validate_ast_expr.py", [.callerFile "sys.argv[1]"], [.textOutput "stdout"]⟩

/-- `scripts/ci-helpers/validate_mixed_expr.py`: reads the JSON file
named by `sys.argv[1]` (line 6) and prints its verdict to stdout. -/
def validateMixedExprEffects : ScriptEffects :=
  ⟨"validate_mixed_expr.py", [.callerFile "sys.argv[1]"], [.textOutput "stdout"]⟩

/-- `scripts/ci-helpers/validate_schema_deltas.py`: reads the JSON file
named by `sys.argv[1]` (line 6) and prints its verdict to stdout. -/
def validateSchemaDeltasEffects : ScriptEffects :=
  ⟨"validate_schema_deltas.py", [.callerFile "sys.argv[1]"], [.textOutput "stdout"]⟩

/-- The out-of-scope collaborator scripts named by spec §1: CSV-driven
plotting, the four JSON-schema-assertion scripts, and chart
generation. -/
def collaboratorScripts : List ScriptEffects :=
  [plotPerfSweepEffects,
   validateWritesEvalEffects, validateAstExprEffects,
   validateMixedExprEffects, validateSchemaDeltasEffects,
   genPositioningEffects]

/-- Whether a data source is a file on disk supplied by the caller. -/
def DataSource.isCallerFile : DataSource → Bool
  | .callerFile _ => true
  | _ => false

/-- Whether an emitted artifact is an image file or text. -/
def Artifact.isImageOrText : Artifact → Bool
  | .imageFile _ => true
  | .textOutput _ => true
  | .otherArtifact _ => false

/-! ## The review-automation core, modelled from the spec

The repository's `src/` tree contains only the out-of-scope scripts;
the orchestrator the spec describes (resolver, poller, severity
classifier) ships no code here.  Its pieces are therefore modelled from
the spec's words (spec §3, §4.4, §4.5, §8), as flagged on each
definition. -/

/-- Modelled from the spec: the derived severity attribute of an inline
comment, `{P0, P1, P2, Unknown}` (spec §3, §4.5). -/
inductive Severity where
  | P0
  | P1
  | P2
  | unknown
deriving DecidableEq, Repr

/-- Modelled from the spec: the recognizable severity tokens of §4.5 /
§8 — the shapes `[Pn]`, `Pn:`, `severity=Pn` and `severity: Pn` for
each label, paired with the normalized label they denote.  Tokens are
stored lowercased; matching lowercases the body first. -/
def sevPatterns : List (List Char × Severity) :=
  [("[p0]".data, .P0), ("[p1]".data, .P1), ("[p2]".data, .P2),
   ("p0:".data, .P0), ("p1:".data, .P1), ("p2:".data, .P2),
   ("severity=p0".data, .P0), ("severity=p1".data, .P1), ("severity=p2".data, .P2),
   ("severity: p0".data, .P0), ("severity: p1".data, .P1), ("severity: p2".data, .P2)]

/-- Modelled from the spec: does some recognizable token start at the
head of `l`?  Returns its normalized label if so. -/
def findPat (l : List Char) : Option Severity :=
  (sevPatterns.find? (fun pr => pr.1.isPrefixOf l)).map Prod.snd

/-- Modelled from the spec: left-to-right scan for the first position
where a recognizable token starts ("only the first match in the body is
used", spec §4.5). -/
def scanSev : List Char → Severity
  | [] => .unknown
  | c :: rest =>
    match findPat (c :: rest) with
    | some s => s
    | none => scanSev rest

/-- Modelled from the spec: `extractSeverity(text)` — case-insensitive
pattern match returning the normalized label of the first recognizable
token, or Unknown when there is none; a total function, so it never
raises (spec §4.5, §8). -/
def extractSeverity (s : String) : Severity :=
  scanSev (s.data.map Char.toLower)

/-- Modelled from the spec: an inline comment (spec §3); only the
fields the classifier consumes are carried. -/
structure InlineComment where
  id : Int
  reviewId : Int
  path : String
  body : String
deriving DecidableEq, Repr

/-- Modelled from the spec: the classifier's three-way partition result
(spec §3 `ClassificationResult`). -/
structure ClassificationResult where
  blockers : List InlineComment
  nonBlockers : List InlineComment
  unknownSeverity : List InlineComment
deriving DecidableEq, Repr

/-- Modelled from the spec: the severity classifier (spec §4.5). Only
inline comments belonging to the selected review are classified; P0/P1
go to `blockers`, P2 to `nonBlockers`, Unknown to `unknownSeverity`. -/
def classify (selectedReview : Int) (comments : List InlineComment) : ClassificationResult :=
  let mine := comments.filter (fun c => c.reviewId == selectedReview)
  ⟨mine.filter (fun c => extractSeverity c.body == .P0 || extractSeverity c.body == .P1),
   mine.filter (fun c => extractSeverity c.body == .P2),
   mine.filter (fun c => extractSeverity c.body == .unknown)⟩

/-- Modelled from the spec: a review record (spec §3); only the fields
the poller's selection rule consumes are carried.  `submittedAt` is an
integer timestamp. -/
structure Review where
  id : Int
  author : String
  submittedAt : Int
deriving DecidableEq, Repr

/-- Modelled from the spec: case-insensitive match against the
designated automated-reviewer identity (spec §4.4 step 1). -/
def isReviewer (identity : String) (r : Review) : Bool :=
  r.author.data.map Char.toLower == identity.data.map Char.toLower

/-- Modelled from the spec: the `RunSnapshot` — ids of automated-
reviewer reviews observed before the trigger (spec §3, §4.4 step 1). -/
def snapshotIds (identity : String) (before : List Review) : List Int :=
  (before.filter (isReviewer identity)).map Review.id

/-- Modelled from the spec: `new = current − before` — the reviews by
the automated-reviewer identity whose ids are not in the snapshot
(spec §4.4 step 3a). -/
def newReviews (identity : String) (snap : List Int) (current : List Review) : List Review :=
  current.filter (fun r => isReviewer identity r && !(snap.contains r.id))

/-- Modelled from the spec: ordering on reviews — `b` is newer than `a`
when its `(submittedAt, id)` pair is greater (spec §4.2, §4.4 step 3b). -/
def newerReview (a b : Review) : Bool :=
  a.submittedAt < b.submittedAt || (a.submittedAt == b.submittedAt && a.id < b.id)

/-- Modelled from the spec: select the element with the greatest
`(submittedAt, id)` ordering, `none` on an empty list. -/
def selectNewest : List Review → Option Review
  | [] => none
  | r :: rs => some (rs.foldl (fun acc x => if newerReview acc x then x else acc) r)

/-- Modelled from the spec: one polling round's review selection — the
newest element of `new = current − before`, or `none` when no new
review exists yet (spec §4.4 step 3a-3b). -/
def pollSelect (identity : String) (snap : List Int) (current : List Review) : Option Review :=
  selectNewest (newReviews identity snap current)

/-! ## Concrete documents used by witnesses and counterexamples -/

/-- The `nodes` array of a document accepted by
`validate_writes_eval.py`: six nodes with the expected ops, kinds and
key sets. -/
def goodWritesNodes : List NodeW :=
  [⟨some "n0", some "core::viewer", some ⟨some "Exact", some [1]⟩⟩,
   ⟨some "n1", some "core::follow", some ⟨some "Exact", some [3001]⟩⟩,
   ⟨some "n2", some "core::vm", some ⟨some "Exact", some [2001]⟩⟩,
   ⟨some "n3", some "core::filter", some ⟨some "Exact", some []⟩⟩,
   ⟨some "n4", some "core::vm", some ⟨some "Exact", some [2001]⟩⟩,
   ⟨some "n5", some "core::take", some ⟨some "May", some []⟩⟩]

/-- A document accepted by `validate_writes_eval.py`. -/
def goodWritesDoc : WritesEvalDoc := ⟨some goodWritesNodes⟩

/-- Six nodes, every `node_id` present, every `writes_eval.kind` the
invalid string `"Bogus"`: the first loop fails its kind assertion. -/
def badKindNodes : List NodeW :=
  List.replicate 6 ⟨some "nx", some "core::x", some ⟨some "Bogus", some []⟩⟩

/-- The document built from `badKindNodes`. -/
def badKindWritesDoc : WritesEvalDoc := ⟨some badKindNodes⟩

/-- Six nodes whose `writes_eval.kind` is invalid but whose first node
lacks `node_id`: the loop's `node["node_id"]` access raises `KeyError`
before any kind assertion runs. -/
def keyErrWritesDoc : WritesEvalDoc :=
  ⟨some
    (⟨none, some "core::x", some ⟨some "Bogus", some []⟩⟩ ::
     List.replicate 5 ⟨some "nx", some "core::x", some ⟨some "Bogus", some []⟩⟩)⟩

/-- The `schema_deltas` array of a document accepted by
`validate_schema_deltas.py`. -/
def goodDeltasList : List Delta :=
  [⟨some "n0", some [], some [1], some [1], some []⟩,
   ⟨some "n1", some [1], some [1, 3001], some [3001], some []⟩,
   ⟨some "n2", some [1, 3001], some [1, 3001, 2001], some [2001], some []⟩,
   ⟨some "n3", some [1, 3001, 2001], some [1, 3001, 2001], some [], some []⟩,
   ⟨some "n4", some [1, 3001, 2001], some [1, 3001, 2001], some [], some []⟩]

/-- A document accepted by `validate_schema_deltas.py`. -/
def goodDeltasDoc : DeltasDoc := ⟨some goodDeltasList⟩

/-- The expression `Key.id * coalesce(P.weight, 0.2)` expected by
`validate_ast_expr.py`. -/
def mulExprJ : ExprJ :=
  .mk (some "mul")
    (some (.mk (some "key_ref") none none (some 1) none))
    (some (.mk (some "coalesce")
      (some (.mk (some "param_ref") none none none none))
      (some (.mk (some "const_number") none none none (some (mkRat 1 5))))
      none none))
    none none

/-- A second `core::vm` node whose `expr_id` `"e99"` has no entry in
the expression table. -/
def danglingVmNode : NodeJ := ⟨some "core::vm", some ⟨some "e99"⟩⟩

/-- A plan accepted by `validate_ast_expr.py` even though its second
`core::vm` node points at the absent expression id `"e99"`: the script
inspects only the first vm node. -/
def danglingPlan : PlanDoc :=
  ⟨some [("e1", mulExprJ)],
   some [⟨some "core::vm", some ⟨some "e1"⟩⟩, danglingVmNode]⟩

/-- A plan accepted by `validate_mixed_expr.py`: two table entries, two
vm nodes, both expression ids resolve. -/
def mixedPlanGood : PlanDoc :=
  ⟨some [("e1", mulExprJ), ("e2", .mk (some "add") none none none none)],
   some [⟨some "core::vm", some ⟨some "e1"⟩⟩,
         ⟨some "core::sink", none⟩,
         ⟨some "core::vm", some ⟨some "e2"⟩⟩]⟩

/-- Inline comments used by the classifier witness: three belong to
review 10 (one blocker, one non-blocker, one unknown), one belongs to
review 11. -/
def exampleComments : List InlineComment :=
  [⟨1, 10, "a.py", "[P0] crash"⟩,
   ⟨2, 10, "b.py", "P2: nit"⟩,
   ⟨3, 10, "c.py", "great work"⟩,
   ⟨4, 11, "d.py", "[P1] other review"⟩]

/-! ## Derived predicates the claim statements quantify over -/

/-- A node carries a `writes_eval` object whose `kind` field is present
and one of `Exact`/`May`/`Unknown`. -/
def validKindNode (n : NodeW) : Bool :=
  match n.writes_eval with
  | some we =>
    match we.kind with
    | some k => k == "Exact" || k == "May" || k == "Unknown"
    | none => false
  | none => false

/-- A node carries a `writes_eval.kind` value lying outside the set
`Exact`/`May`/`Unknown`. -/
def invalidKindNode (n : NodeW) : Bool :=
  match n.writes_eval with
  | some we =>
    match we.kind with
    | some k => !(k == "Exact" || k == "May" || k == "Unknown")
    | none => false
  | none => false

/-- All five fields `validate_schema_deltas.py` requires are present. -/
def deltaFields (d : Delta) : Bool :=
  d.node_id.isSome && d.in_keys_union.isSome && d.out_keys.isSome &&
    d.new_keys.isSome && d.removed_keys.isSome

/-! ## Inversion toolbox for the `Except`-embedded scripts -/

theorem ebind_ok_iff {α β : Type} (x : Except PyErr α) (f : α → Except PyErr β) (b : β) :
    (x >>= f) = .ok b ↔ ∃ a, x = .ok a ∧ f a = .ok b := by
  cases x <;> simp [Bind.bind, Except.bind]

theorem getOpt_ok_iff {α : Type} (o : Option α) (k : String) (a : α) :
    getOpt o k = .ok a ↔ o = some a := by
  cases o <;> simp [getOpt]

theorem pyAssert_ok_iff (b : Bool) (m : String) (u : Unit) :
    pyAssert b m = .ok u ↔ b = true := by
  cases b <;> simp [pyAssert]

theorem pyAssert_false (m : String) :
    pyAssert false m = .error (.assertion m) := rfl

theorem forM_ok_iff {α : Type} (f : α → Except PyErr Unit) (l : List α) :
    l.forM f = .ok () ↔ ∀ a ∈ l, f a = .ok () := by
  induction l with
  | nil => exact ⟨fun _ a ha => absurd ha (List.not_mem_nil a), fun _ => rfl⟩
  | cons x xs ih =>
    have hstep : (x :: xs).forM f = (f x >>= fun _ => xs.forM f) := rfl
    rw [hstep]
    cases hx : f x with
    | error e => simp [hx, Bind.bind, Except.bind]
    | ok u =>
      cases u
      simp only [Bind.bind, Except.bind, List.mem_cons]
      rw [ih]
      constructor
      · intro h a ha
        rcases ha with rfl | ha
        · exact hx
        · exact h a ha
      · intro h a ha
        exact h a (Or.inr ha)

/-- If every element's action either succeeds or fails an assertion,
and some element's action fails an assertion, the whole `forM` fails an
assertion. -/
theorem forM_assertion {α : Type} (f : α → Except PyErr Unit) (l : List α)
    (hall : ∀ a ∈ l, f a = .ok () ∨ ∃ m, f a = .error (.assertion m))
    (hbad : ∃ a ∈ l, ∃ m, f a = .error (.assertion m)) :
    ∃ m, l.forM f = .error (.assertion m) := by
  induction l with
  | nil => rcases hbad with ⟨a, ha, _⟩; cases ha
  | cons x xs ih =>
    have hstep : (x :: xs).forM f = (f x >>= fun _ => xs.forM f) := rfl
    rw [hstep]
    rcases hall x (List.mem_cons_self x xs) with hx | ⟨m, hx⟩
    · cases hx' : f x with
      | error e => rw [hx] at hx'; cases hx'
      | ok u =>
        cases u
        simp only [Bind.bind, Except.bind]
        apply ih
        · intro a ha; exact hall a (List.mem_cons_of_mem x ha)
        · rcases hbad with ⟨a, ha, m, hm⟩
          rcases List.mem_cons.mp ha with rfl | ha
          · rw [hx] at hm; cases hm
          · exact ⟨a, ha, m, hm⟩
    · exact ⟨m, by rw [hx]; simp [Bind.bind, Except.bind]⟩

/-! ## Claim C9 — `parse_float` / `parse_int` / `median` safety -/

/-- C9: `parse_float` and `parse_int` return `None` — and never raise —
for the empty string, the string `"null"`, and any string that does not
parse as a number; `median` filters `None` values out of its input and
returns `None` when no numeric values remain, otherwise the statistical
median of the remaining values. -/
theorem parse_helpers_safe :
    parse_float "" = none ∧ parse_float "null" = none ∧
    (∀ s, pyFloat s = none → parse_float s = none) ∧
    parse_int "" = .ok none ∧ parse_int "null" = .ok none ∧
    (∀ s, pyFloat s = none → parse_int s = .ok none) ∧
    (∀ xs : List (Option ℚ), xs.filterMap id = [] → median xs = none) ∧
    (∀ xs : List (Option ℚ), xs.filterMap id ≠ [] →
      median xs = some (statMedian (xs.filterMap id))) := by
  refine ⟨rfl, rfl, ?_, rfl, rfl, ?_, ?_, ?_⟩
  · intro s h
    unfold parse_float
    split
    · rfl
    · exact h
  · intro s h
    unfold parse_int
    split
    · rfl
    · rw [h]
  · intro xs h
    simp [median, h]
  · intro xs h
    simp [median, h]

/-- Witness for C9 at concrete inputs: `"abc"` fails numeric
conversion, an all-`None` list has no median, and a singleton
numeric list has one. -/
theorem parse_helpers_safe_witness :
    parse_float "abc" = none ∧ parse_int "abc" = .ok none ∧
    median [none, none] = none ∧
    median [some 2, none] = some (statMedian [2]) := by
  obtain ⟨_, _, h3, _, _, h6, h7, h8⟩ := parse_helpers_safe
  exact ⟨h3 "abc" (by decide), h6 "abc" (by decide),
         h7 [none, none] (by decide), h8 [some 2, none] (by decide)⟩

/-! ## Claim C1 — `validate_writes_eval.py` gates on `writes_eval.kind` -/

/-- A node that survives the first loop of `validate_writes_eval.py`
has a present, valid `writes_eval.kind`. -/
theorem checkNodeW_ok (n : NodeW) (h : checkNodeW n = .ok ()) : validKindNode n = true := by
  obtain ⟨nid?, op?, we?⟩ := n
  cases nid? with
  | none => simp [checkNodeW, getOpt, Bind.bind, Except.bind] at h
  | some nid =>
    cases we? with
    | none => simp [checkNodeW, getOpt, Bind.bind, Except.bind] at h
    | some we =>
      obtain ⟨kind?, keys?⟩ := we
      cases kind? with
      | none => simp [checkNodeW, getOpt, Bind.bind, Except.bind] at h
      | some k =>
        cases keys? with
        | none => simp [checkNodeW, getOpt, Bind.bind, Except.bind] at h
        | some ks =>
          simp only [checkNodeW, getOpt, Bind.bind, Except.bind] at h
          rw [pyAssert_ok_iff] at h
          simp [validKindNode, h]

/-- A node whose `node_id` is present but whose `writes_eval.kind` is
invalid makes the first loop fail with an `AssertionError`. -/
theorem checkNodeW_badKind (n : NodeW) (hbad : invalidKindNode n = true)
    (hid : n.node_id.isSome) : ∃ m, checkNodeW n = .error (.assertion m) := by
  obtain ⟨nid?, op?, we?⟩ := n
  cases nid? with
  | none => simp at hid
  | some nid =>
    cases we? with
    | none => simp [invalidKindNode] at hbad
    | some we =>
      obtain ⟨kind?, keys?⟩ := we
      cases kind? with
      | none => simp [invalidKindNode] at hbad
      | some k =>
        cases keys? with
        | none =>
          exact ⟨"writes_eval missing keys", by simp [checkNodeW, getOpt, Bind.bind, Except.bind]⟩
        | some ks =>
          simp only [invalidKindNode, Bool.not_eq_eq_eq_not, Bool.not_true] at hbad
          refine ⟨"Invalid kind: " ++ k, ?_⟩
          simp [checkNodeW, getOpt, pyAssert, Bind.bind, Except.bind, hbad]

/-- With `node_id` present, the first loop's body either succeeds or
fails an assertion — it cannot raise anything else. -/
theorem checkNodeW_classify (n : NodeW) (hid : n.node_id.isSome) :
    checkNodeW n = .ok () ∨ ∃ m, checkNodeW n = .error (.assertion m) := by
  obtain ⟨nid?, op?, we?⟩ := n
  cases nid? with
  | none => simp at hid
  | some nid =>
    cases we? with
    | none =>
      exact Or.inr ⟨"Node " ++ nid ++ " missing writes_eval",
        by simp [checkNodeW, getOpt, Bind.bind, Except.bind]⟩
    | some we =>
      obtain ⟨kind?, keys?⟩ := we
      cases kind? with
      | none =>
        exact Or.inr ⟨"writes_eval missing kind",
          by simp [checkNodeW, getOpt, Bind.bind, Except.bind]⟩
      | some k =>
        cases keys? with
        | none =>
          exact Or.inr ⟨"writes_eval missing keys",
            by simp [checkNodeW, getOpt, Bind.bind, Except.bind]⟩
        | some ks =>
          by_cases hvk : (k == "Exact" || k == "May" || k == "Unknown") = true
          · exact Or.inl (by simp [checkNodeW, getOpt, pyAssert, Bind.bind, Except.bind, hvk])
          · refine Or.inr ⟨"Invalid kind: " ++ k, ?_⟩
            rw [Bool.not_eq_true] at hvk
            simp [checkNodeW, getOpt, pyAssert, Bind.bind, Except.bind, hvk]

/-- C1 counterexample: a six-node document whose every node carries the
invalid kind `"Bogus"` but whose first node lacks `node_id` — the
script fails with a `KeyError`, not an `AssertionError`, even though a
node's `writes_eval.kind` lies outside `{Exact, May, Unknown}`. -/
theorem writes_eval_keyerror_counterexample :
    runWritesEvalS keyErrWritesDoc = .error (.keyError "node_id") ∧
    keyErrWritesDoc.nodes = some (⟨none, some "core::x", some ⟨some "Bogus", some []⟩⟩ ::
      List.replicate 5 ⟨some "nx", some "core::x", some ⟨some "Bogus", some []⟩⟩) ∧
    invalidKindNode ⟨none, some "core::x", some ⟨some "Bogus", some []⟩⟩ = true := by
  refine ⟨by decide, rfl, by decide⟩

/-- C1 (amended): the script completes successfully only if every node
of the `nodes` array carries a `writes_eval` object whose `kind` is one
of `Exact`/`May`/`Unknown`; and whenever some node's `writes_eval.kind`
lies outside this set, the script fails before printing its success
message with an `AssertionError` — provided every node has a `node_id`
field (a node without one makes the loop raise `KeyError` first, as the
counterexample shows). -/
theorem writes_eval_kind_gate (l : List NodeW) :
    (∀ m d', runWritesEvalS ⟨some l⟩ = .ok (m, d') → ∀ n ∈ l, validKindNode n = true) ∧
    ((∃ n ∈ l, invalidKindNode n = true) → (∀ n ∈ l, n.node_id.isSome) →
      ∃ msg, runWritesEvalS ⟨some l⟩ = .error (.assertion msg)) := by
  constructor
  · intro m d' h n hn
    simp only [runWritesEvalS, ebind_ok_iff] at h
    obtain ⟨_, _, u2, hforM, _⟩ := h
    cases u2
    exact checkNodeW_ok n ((forM_ok_iff checkNodeW l).mp hforM n hn)
  · intro hbad hids
    by_cases hlen : l.length = 6
    · obtain ⟨msg, hforM⟩ := forM_assertion checkNodeW l
        (fun a ha => checkNodeW_classify a (hids a ha))
        (by rcases hbad with ⟨n, hn, hbadn⟩
            exact ⟨n, hn, checkNodeW_badKind n hbadn (hids n hn)⟩)
      refine ⟨msg, ?_⟩
      have hb : (l.length == 6) = true := by simp [hlen]
      simp [runWritesEvalS, pyAssert, hb, hforM, Bind.bind, Except.bind]
    · refine ⟨"Expected 6 nodes, got " ++ toString l.length, ?_⟩
      have hb : (l.length == 6) = false := by simp [hlen]
      simp [runWritesEvalS, pyAssert, hb, Bind.bind, Except.bind]

/-- Witness for C1 (amended): the success direction on the accepted
document, and the failure direction on a six-node document whose kinds
are all `"Bogus"` and whose `node_id`s are all present. -/
theorem writes_eval_kind_gate_witness :
    validKindNode ⟨some "n0", some "core::viewer", some ⟨some "Exact", some [1]⟩⟩ = true ∧
    ∃ msg, runWritesEvalS badKindWritesDoc = .error (.assertion msg) := by
  constructor
  · exact (writes_eval_kind_gate goodWritesNodes).1 "writes_eval validation passed"
      goodWritesDoc (by decide)
      ⟨some "n0", some "core::viewer", some ⟨some "Exact", some [1]⟩⟩ (by decide)
  · exact (writes_eval_kind_gate badKindNodes).2 (by decide) (by decide)

/-! ## Claim C10 — shape of documents accepted by `validate_schema_deltas.py` -/

/-- `next(d for d in deltas if d["node_id"] == t)` returns a member of
the list whose `node_id` is `t`. -/
theorem findDelta_ok (t : String) (l : List Delta) (d : Delta)
    (h : findDelta t l = .ok d) : d ∈ l ∧ d.node_id = some t := by
  induction l with
  | nil => cases h
  | cons x xs ih =>
    simp only [findDelta] at h
    cases hnid : x.node_id with
    | none => rw [hnid] at h; simp [getOpt, Bind.bind, Except.bind] at h
    | some nid =>
      rw [hnid] at h
      simp only [getOpt, Bind.bind, Except.bind] at h
      by_cases heq : (nid == t) = true
      · rw [if_pos heq] at h
        cases h
        refine ⟨List.mem_cons_self _ _, ?_⟩
        rw [hnid]
        simp only [beq_iff_eq] at heq
        rw [heq]
      · rw [if_neg heq] at h
        have := ih h
        exact ⟨List.mem_cons_of_mem _ this.1, this.2⟩

/-- A delta that survives the field-presence loop has all five fields. -/
theorem checkDelta_ok (d : Delta) (h : checkDelta d = .ok ()) : deltaFields d = true := by
  simp only [checkDelta, ebind_ok_iff] at h
  obtain ⟨_, h1, _, h2, _, h3, _, h4, h5⟩ := h
  rw [pyAssert_ok_iff] at h1 h2 h3 h4 h5
  simp [deltaFields, h1, h2, h3, h4, h5]

/-- Pigeonhole: five pairwise-distinct members of a five-element list
exhaust it. -/
theorem five_cover {α : Type} [DecidableEq α] (l : List α) (a b c d e : α)
    (hl : l.length = 5) (ha : a ∈ l) (hb : b ∈ l) (hc : c ∈ l) (hd : d ∈ l) (he : e ∈ l)
    (hab : a ≠ b) (hac : a ≠ c) (had : a ≠ d) (hae : a ≠ e)
    (hbc : b ≠ c) (hbd : b ≠ d) (hbe : b ≠ e)
    (hcd : c ≠ d) (hce : c ≠ e) (hde : d ≠ e) :
    ∀ x ∈ l, x = a ∨ x = b ∨ x = c ∨ x = d ∨ x = e := by
  intro x hx
  by_contra hcon
  push_neg at hcon
  obtain ⟨hxa, hxb, hxc, hxd, hxe⟩ := hcon
  have hsub : ({a, b, c, d, e, x} : Finset α) ⊆ l.toFinset := by
    intro y hy
    simp only [Finset.mem_insert, Finset.mem_singleton] at hy
    rw [List.mem_toFinset]
    rcases hy with rfl | rfl | rfl | rfl | rfl | rfl
    exacts [ha, hb, hc, hd, he, hx]
  have hc6 : ({a, b, c, d, e, x} : Finset α).card = 6 := by
    rw [Finset.card_insert_of_not_mem (by simp [hab, hac, had, hae, Ne.symm hxa]),
        Finset.card_insert_of_not_mem (by simp [hbc, hbd, hbe, Ne.symm hxb]),
        Finset.card_insert_of_not_mem (by simp [hcd, hce, Ne.symm hxc]),
        Finset.card_insert_of_not_mem (by simp [hde, Ne.symm hxd]),
        Finset.card_insert_of_not_mem (by simp [Ne.symm hxe]),
        Finset.card_singleton]
  have h6 : 6 ≤ l.toFinset.card := hc6 ▸ Finset.card_le_card hsub
  have h5 : l.toFinset.card ≤ 5 := hl ▸ l.toFinset_card_le
  omega

/-- Deltas with different `node_id` values are different deltas. -/
theorem delta_ne_of_node_id (u v : Delta) (su sv : String)
    (hu : u.node_id = some su) (hv : v.node_id = some sv) (hne : su ≠ sv) : u ≠ v := by
  intro hh
  rw [hh, hv] at hu
  injection hu with h
  exact hne h.symm

/-- C10: every document accepted by `validate_schema_deltas.py` has
exactly 5 `schema_deltas` entries, each entry carries the fields
`node_id`, `in_keys_union`, `out_keys`, `new_keys` and `removed_keys`,
and every delta whose `node_id` is `n3` or `n4` has `new_keys` and
`removed_keys` both equal to the empty list. -/
theorem schema_deltas_accept (l : List Delta) (m : String) (d' : DeltasDoc)
    (h : runSchemaDeltasS ⟨some l⟩ = .ok (m, d')) :
    l.length = 5 ∧ (∀ δ ∈ l, deltaFields δ = true) ∧
    (∀ δ ∈ l, (δ.node_id = some "n3" ∨ δ.node_id = some "n4") →
      δ.new_keys = some [] ∧ δ.removed_keys = some []) := by
  simp only [runSchemaDeltasS, ebind_ok_iff] at h
  obtain ⟨_, hlen, u2, hforM, d0, hf0, k0, hk0, _, hc0, d1, hf1, k1, hk1, _, hc1,
    d2, hf2, k2, hk2, _, hc2, d3, hf3, k3, hk3, _, hc3, r3, hr3, _, hcr3,
    d4, hf4, k4, hk4, _, hc4, r4, hr4, _, hcr4, _⟩ := h
  cases u2
  rw [pyAssert_ok_iff] at hlen hc3 hcr3 hc4 hcr4
  have hlen' : l.length = 5 := by simpa using hlen
  obtain ⟨hm0, hid0⟩ := findDelta_ok _ _ _ hf0
  obtain ⟨hm1, hid1⟩ := findDelta_ok _ _ _ hf1
  obtain ⟨hm2, hid2⟩ := findDelta_ok _ _ _ hf2
  obtain ⟨hm3, hid3⟩ := findDelta_ok _ _ _ hf3
  obtain ⟨hm4, hid4⟩ := findDelta_ok _ _ _ hf4
  rw [getOpt_ok_iff] at hk3 hr3 hk4 hr4
  simp only [beq_iff_eq] at hc3 hcr3 hc4 hcr4
  subst hc3 hcr3 hc4 hcr4
  refine ⟨hlen', ?_, ?_⟩
  · intro δ hδ
    exact checkDelta_ok δ ((forM_ok_iff checkDelta l).mp hforM δ hδ)
  · intro δ hδ hid
    have hcover := five_cover l d0 d1 d2 d3 d4 hlen' hm0 hm1 hm2 hm3 hm4
      (delta_ne_of_node_id _ _ _ _ hid0 hid1 (by decide))
      (delta_ne_of_node_id _ _ _ _ hid0 hid2 (by decide))
      (delta_ne_of_node_id _ _ _ _ hid0 hid3 (by decide))
      (delta_ne_of_node_id _ _ _ _ hid0 hid4 (by decide))
      (delta_ne_of_node_id _ _ _ _ hid1 hid2 (by decide))
      (delta_ne_of_node_id _ _ _ _ hid1 hid3 (by decide))
      (delta_ne_of_node_id _ _ _ _ hid1 hid4 (by decide))
      (delta_ne_of_node_id _ _ _ _ hid2 hid3 (by decide))
      (delta_ne_of_node_id _ _ _ _ hid2 hid4 (by decide))
      (delta_ne_of_node_id _ _ _ _ hid3 hid4 (by decide))
    rcases hcover δ hδ with rfl | rfl | rfl | rfl | rfl
    · rcases hid with hbadid | hbadid <;> rw [hid0] at hbadid <;> simp at hbadid
    · rcases hid with hbadid | hbadid <;> rw [hid1] at hbadid <;> simp at hbadid
    · rcases hid with hbadid | hbadid <;> rw [hid2] at hbadid <;> simp at hbadid
    · exact ⟨hk3, hr3⟩
    · exact ⟨hk4, hr4⟩

/-- Witness for C10: the accepted schema-deltas document has the
claimed shape. -/
theorem schema_deltas_accept_witness :
    goodDeltasList.length = 5 ∧ (∀ δ ∈ goodDeltasList, deltaFields δ = true) ∧
    (∀ δ ∈ goodDeltasList, (δ.node_id = some "n3" ∨ δ.node_id = some "n4") →
      δ.new_keys = some [] ∧ δ.removed_keys = some []) :=
  schema_deltas_accept goodDeltasList "schema_deltas validation passed" goodDeltasDoc
    (by decide)

/-! ## Claim C5 — `extractSeverity` (spec-modelled) -/

/-- `findPat` only ever yields a real severity label, never Unknown. -/
theorem findPat_ne_unknown (l : List Char) (s : Severity) (h : findPat l = some s) :
    s ≠ Severity.unknown := by
  unfold findPat at h
  cases hf : sevPatterns.find? (fun pr => pr.1.isPrefixOf l) with
  | none => rw [hf] at h; cases h
  | some pr =>
    rw [hf] at h
    injection h with h
    have hmem := List.mem_of_find?_eq_some hf
    subst h
    have hall : ∀ pr ∈ sevPatterns, pr.2 ≠ Severity.unknown := by decide
    exact hall pr hmem

/-- The scanner returns Unknown exactly when no token starts anywhere,
and otherwise the label of the token at the first matching position. -/
theorem scanSev_spec (l : List Char) :
    (scanSev l = Severity.unknown ↔ ∀ i, findPat (l.drop i) = none) ∧
    (∀ sev, sev ≠ Severity.unknown →
      (scanSev l = sev ↔ ∃ i, findPat (l.drop i) = some sev ∧
        ∀ j < i, findPat (l.drop j) = none)) := by
  induction l with
  | nil =>
    constructor
    · constructor
      · intro _ i
        rw [List.drop_nil]
        decide
      · intro _; rfl
    · intro sev hsev
      constructor
      · intro h; exact absurd h.symm hsev
      · rintro ⟨i, hi, _⟩
        rw [List.drop_nil] at hi
        have hnone : findPat ([] : List Char) = none := by decide
        rw [hnone] at hi; cases hi
  | cons c rest ih =>
    cases hf : findPat (c :: rest) with
    | some s0 =>
      have hs0 : s0 ≠ Severity.unknown := findPat_ne_unknown _ _ hf
      have hscan : scanSev (c :: rest) = s0 := by simp [scanSev, hf]
      constructor
      · rw [hscan]
        constructor
        · intro h; exact absurd h hs0
        · intro h
          have h0 := h 0
          rw [List.drop_zero, hf] at h0
          cases h0
      · intro sev hsev
        rw [hscan]
        constructor
        · intro h
          subst h
          exact ⟨0, by rw [List.drop_zero]; exact hf,
                 fun j hj => absurd hj (Nat.not_lt_zero j)⟩
        · rintro ⟨i, hi, hj⟩
          cases i with
          | zero =>
            rw [List.drop_zero, hf] at hi
            injection hi
          | succ i' =>
            have h0 := hj 0 (Nat.succ_pos i')
            rw [List.drop_zero, hf] at h0
            cases h0
    | none =>
      have hscan : scanSev (c :: rest) = scanSev rest := by simp [scanSev, hf]
      obtain ⟨ih1, ih2⟩ := ih
      constructor
      · rw [hscan, ih1]
        constructor
        · intro h i
          cases i with
          | zero => rw [List.drop_zero]; exact hf
          | succ i' => rw [List.drop_succ_cons]; exact h i'
        · intro h i
          have hi := h (i + 1)
          rw [List.drop_succ_cons] at hi
          exact hi
      · intro sev hsev
        rw [hscan, ih2 sev hsev]
        constructor
        · rintro ⟨i, hi, hj⟩
          refine ⟨i + 1, ?_, ?_⟩
          · rw [List.drop_succ_cons]; exact hi
          · intro j hjlt
            cases j with
            | zero => rw [List.drop_zero]; exact hf
            | succ j' => rw [List.drop_succ_cons]; exact hj j' (by omega)
        · rintro ⟨i, hi, hj⟩
          cases i with
          | zero => rw [List.drop_zero, hf] at hi; cases hi
          | succ i' =>
            refine ⟨i', ?_, ?_⟩
            · rw [List.drop_succ_cons] at hi; exact hi
            · intro j hjlt
              have hja := hj (j + 1) (by omega)
              rw [List.drop_succ_cons] at hja
              exact hja

/-- C5 (spec-modelled): `extractSeverity` is total (it is a Lean
function, so it never raises); it returns Unknown exactly when no
recognizable severity token occurs anywhere in the lowercased body; and
when it returns a label, that label is the one of the token at the
first matching position — only the first match is used. -/
theorem extractSeverity_spec (s : String) :
    (extractSeverity s = Severity.unknown ↔
      ∀ i, findPat ((s.data.map Char.toLower).drop i) = none) ∧
    (∀ sev, sev ≠ Severity.unknown →
      (extractSeverity s = sev ↔
        ∃ i, findPat ((s.data.map Char.toLower).drop i) = some sev ∧
          ∀ j < i, findPat ((s.data.map Char.toLower).drop j) = none)) :=
  scanSev_spec (s.data.map Char.toLower)

/-- Witness for C5: `"Fix this [P1]: now"` carries its first token
`[P1]` at position 9 of the lowercased body, and the extractor returns
`P1`. -/
theorem extractSeverity_spec_witness :
    extractSeverity "Fix this [P1]: now" = Severity.P1 :=
  ((extractSeverity_spec "Fix this [P1]: now").2 Severity.P1 (by decide)).mpr
    ⟨9, by decide, by decide⟩

/-! ## Claim C6 — classifier partition (spec-modelled) -/

/-- Three pairwise-exclusive, jointly-exhaustive filters split a list's
length exactly. -/
theorem filter3_partition {α : Type} (l : List α) (p q u : α → Bool)
    (hx : ∀ x, (p x = true ∧ q x = false ∧ u x = false) ∨
               (p x = false ∧ q x = true ∧ u x = false) ∨
               (p x = false ∧ q x = false ∧ u x = true)) :
    (l.filter p).length + (l.filter q).length + (l.filter u).length = l.length := by
  induction l with
  | nil => rfl
  | cons x xs ih =>
    rcases hx x with ⟨h1, h2, h3⟩ | ⟨h1, h2, h3⟩ | ⟨h1, h2, h3⟩ <;>
      simp [List.filter_cons, h1, h2, h3] <;> omega

/-- Each comment's severity puts it in exactly one of the three
predicate classes the classifier filters with. -/
theorem severity_trichotomy (c : InlineComment) :
    ((extractSeverity c.body == Severity.P0 || extractSeverity c.body == Severity.P1) = true ∧
      (extractSeverity c.body == Severity.P2) = false ∧
      (extractSeverity c.body == Severity.unknown) = false) ∨
    ((extractSeverity c.body == Severity.P0 || extractSeverity c.body == Severity.P1) = false ∧
      (extractSeverity c.body == Severity.P2) = true ∧
      (extractSeverity c.body == Severity.unknown) = false) ∨
    ((extractSeverity c.body == Severity.P0 || extractSeverity c.body == Severity.P1) = false ∧
      (extractSeverity c.body == Severity.P2) = false ∧
      (extractSeverity c.body == Severity.unknown) = true) := by
  cases h : extractSeverity c.body <;> simp [h]

/-- C6 (spec-modelled): the classifier's partition is total and
disjoint — the three buckets' sizes sum to the number of inline
comments belonging to the selected review, and each such comment lands
in exactly one bucket. -/
theorem classify_partition (sel : Int) (comments : List InlineComment) :
    ((classify sel comments).blockers.length + (classify sel comments).nonBlockers.length +
      (classify sel comments).unknownSeverity.length =
      (comments.filter (fun c => c.reviewId == sel)).length) ∧
    (∀ c ∈ comments.filter (fun c => c.reviewId == sel),
      (c ∈ (classify sel comments).blockers ∧ c ∉ (classify sel comments).nonBlockers ∧
        c ∉ (classify sel comments).unknownSeverity) ∨
      (c ∉ (classify sel comments).blockers ∧ c ∈ (classify sel comments).nonBlockers ∧
        c ∉ (classify sel comments).unknownSeverity) ∨
      (c ∉ (classify sel comments).blockers ∧ c ∉ (classify sel comments).nonBlockers ∧
        c ∈ (classify sel comments).unknownSeverity)) := by
  constructor
  · exact filter3_partition (comments.filter (fun c => c.reviewId == sel)) _ _ _
      severity_trichotomy
  · intro c hc
    have hmem : c ∈ comments ∧ c.reviewId = sel := by simpa [List.mem_filter] using hc
    rcases severity_trichotomy c with ⟨h1, h2, h3⟩ | ⟨h1, h2, h3⟩ | ⟨h1, h2, h3⟩
    · left; simp [classify, List.mem_filter, hmem.1, hmem.2, h1, h2, h3]
    · right; left; simp [classify, List.mem_filter, hmem.1, hmem.2, h1, h2, h3]
    · right; right; simp [classify, List.mem_filter, hmem.1, hmem.2, h1, h2, h3]

/-- Witness for C6 at the example comments: the counts add up and the
`[P0]` comment of the selected review lands in exactly one bucket. -/
theorem classify_partition_witness :
    ((classify 10 exampleComments).blockers.length +
      (classify 10 exampleComments).nonBlockers.length +
      (classify 10 exampleComments).unknownSeverity.length =
      (exampleComments.filter (fun c => c.reviewId == 10)).length) ∧
    ((⟨1, 10, "a.py", "[P0] crash"⟩ : InlineComment) ∈ (classify 10 exampleComments).blockers ∧
      (⟨1, 10, "a.py", "[P0] crash"⟩ : InlineComment) ∉ (classify 10 exampleComments).nonBlockers ∧
      (⟨1, 10, "a.py", "[P0] crash"⟩ : InlineComment) ∉ (classify 10 exampleComments).unknownSeverity) ∨
    ((⟨1, 10, "a.py", "[P0] crash"⟩ : InlineComment) ∉ (classify 10 exampleComments).blockers ∧
      (⟨1, 10, "a.py", "[P0] crash"⟩ : InlineComment) ∈ (classify 10 exampleComments).nonBlockers ∧
      (⟨1, 10, "a.py", "[P0] crash"⟩ : InlineComment) ∉ (classify 10 exampleComments).unknownSeverity) ∨
    ((⟨1, 10, "a.py", "[P0] crash"⟩ : InlineComment) ∉ (classify 10 exampleComments).blockers ∧
      (⟨1, 10, "a.py", "[P0] crash"⟩ : InlineComment) ∉ (classify 10 exampleComments).nonBlockers ∧
      (⟨1, 10, "a.py", "[P0] crash"⟩ : InlineComment) ∈ (classify 10 exampleComments).unknownSeverity) := by
  rcases (classify_partition 10 exampleComments).2 ⟨1, 10, "a.py", "[P0] crash"⟩ (by decide)
    with h | h | h
  · exact Or.inl ⟨(classify_partition 10 exampleComments).1, h⟩
  · exact Or.inr (Or.inl h)
  · exact Or.inr (Or.inr h)

/-! ## Claim C7 — poller snapshot exclusion (spec-modelled) -/

/-- The newest-review fold selects an element of its list. -/
theorem foldl_pick_mem (xs : List Review) (acc : Review) :
    xs.foldl (fun a b => if newerReview a b then b else a) acc = acc ∨
    xs.foldl (fun a b => if newerReview a b then b else a) acc ∈ xs := by
  induction xs generalizing acc with
  | nil => exact Or.inl rfl
  | cons y ys ih =>
    simp only [List.foldl_cons]
    rcases ih (if newerReview acc y then y else acc) with h | h
    · rw [h]
      cases hn : newerReview acc y
      · simp [hn]
      · simp [hn]
    · exact Or.inr (List.mem_cons_of_mem _ h)

/-- `selectNewest` returns a member of its input list. -/
theorem selectNewest_mem (rs : List Review) (r : Review) (h : selectNewest rs = some r) :
    r ∈ rs := by
  cases rs with
  | nil => cases h
  | cons x xs =>
    simp only [selectNewest] at h
    injection h with h
    rcases foldl_pick_mem xs x with hp | hp
    · rw [← h, hp]; exact List.mem_cons_self _ _
    · rw [← h]; exact List.mem_cons_of_mem _ hp

/-- Anything one polling round selects is by the reviewer identity and
outside the snapshot. -/
theorem pollSelect_fresh (identity : String) (snap : List Int) (current : List Review)
    (r : Review) (h : pollSelect identity snap current = some r) :
    isReviewer identity r = true ∧ snap.contains r.id = false := by
  have hmem : r ∈ newReviews identity snap current := selectNewest_mem _ _ h
  unfold newReviews at hmem
  rw [List.mem_filter] at hmem
  have hcond := hmem.2
  simp only [Bool.and_eq_true, Bool.not_eq_true'] at hcond
  exact hcond

/-- C7 (spec-modelled): the poller never selects a review whose id is
in the pre-trigger snapshot — in particular never a pre-existing
review R1 — and in the two-review scenario (R1 snapshotted before the
trigger, R2 posted after) it selects R2 in either arrival order,
regardless of the reviews' `submittedAt` values. -/
theorem poller_snapshot_exclusion :
    (∀ (identity : String) (before current : List Review) (r1 r : Review),
      isReviewer identity r1 = true → r1 ∈ before →
      pollSelect identity (snapshotIds identity before) current = some r → r ≠ r1) ∧
    (∀ (identity : String) (r1 r2 : Review),
      isReviewer identity r1 = true → isReviewer identity r2 = true → r1.id ≠ r2.id →
      pollSelect identity (snapshotIds identity [r1]) [r1, r2] = some r2 ∧
      pollSelect identity (snapshotIds identity [r1]) [r2, r1] = some r2) := by
  constructor
  · intro identity before current r1 r hrev hmem hsel heq
    obtain ⟨_, hfresh⟩ := pollSelect_fresh _ _ _ _ hsel
    subst heq
    have hin : r.id ∈ snapshotIds identity before := by
      unfold snapshotIds
      exact List.mem_map_of_mem _ (List.mem_filter.mpr ⟨hmem, hrev⟩)
    have hcontains : (snapshotIds identity before).contains r.id = true :=
      List.elem_eq_true_of_mem hin
    rw [hcontains] at hfresh
    cases hfresh
  · intro identity r1 r2 h1 h2 hne
    have hsnap : snapshotIds identity [r1] = [r1.id] := by
      simp [snapshotIds, List.filter, h1]
    have hr1out : (isReviewer identity r1 && !([r1.id].contains r1.id)) = false := by
      simp
    have hr2in : (isReviewer identity r2 && !([r1.id].contains r2.id)) = true := by
      simp [h2, Ne.symm hne]
    constructor
    · unfold pollSelect
      rw [hsnap]
      unfold newReviews
      simp only [List.filter, hr1out, hr2in]
      rfl
    · unfold pollSelect
      rw [hsnap]
      unfold newReviews
      simp only [List.filter, hr1out, hr2in]
      rfl

/-- Witness for C7: with trigger-time snapshot `{R1}` and R2 arriving
afterwards with an *older* timestamp than R1, the poller still selects
R2 and not R1. -/
theorem poller_snapshot_exclusion_witness :
    pollSelect "ReviewBot" (snapshotIds "ReviewBot" [⟨100, "reviewbot", 50⟩])
      [⟨100, "reviewbot", 50⟩, ⟨101, "ReviewBot", 10⟩] = some ⟨101, "ReviewBot", 10⟩ ∧
    pollSelect "ReviewBot" (snapshotIds "ReviewBot" [⟨100, "reviewbot", 50⟩])
      [⟨101, "ReviewBot", 10⟩, ⟨100, "reviewbot", 50⟩] = some ⟨101, "ReviewBot", 10⟩ :=
  poller_snapshot_exclusion.2 "ReviewBot" ⟨100, "reviewbot", 50⟩ ⟨101, "ReviewBot", 10⟩
    (by decide) (by decide) (by decide)

/-! ## Claim C8 — `detect_knee` characterization -/

/-- Shifting all three lists by one head shifts the loop index. -/
theorem kneeStep_cons_succ (x : Int) (cs : List Int) (y : Option ℚ) (qs : List (Option ℚ))
    (z : Option ℚ) (ps : List (Option ℚ)) (i : Nat) :
    kneeStep (x :: cs) (y :: qs) (z :: ps) (i + 1) = kneeStep cs qs ps i := by
  simp [kneeStep]

/-- If iteration 0 skips, the outcome of the tail run is the outcome of
the whole run. -/
theorem kneeOutcome_cons (x : Int) (cs : List Int) (y : Option ℚ) (qs : List (Option ℚ))
    (z : Option ℚ) (ps : List (Option ℚ)) (r : Except PyErr (Option Int))
    (h0 : kneeStep (x :: cs) (y :: qs) (z :: ps) 0 = .skip)
    (hr : kneeOutcome cs qs ps r) :
    kneeOutcome (x :: cs) (y :: qs) (z :: ps) r := by
  cases r with
  | error e =>
    simp only [kneeOutcome] at hr ⊢
    obtain ⟨he, i, hi, hj⟩ := hr
    refine ⟨he, i + 1, ?_, ?_⟩
    · rw [kneeStep_cons_succ]; exact hi
    · intro j hjlt
      cases j with
      | zero => exact h0
      | succ j' => rw [kneeStep_cons_succ]; exact hj j' (by omega)
  | ok o =>
    cases o with
    | none =>
      simp only [kneeOutcome] at hr ⊢
      intro i
      cases i with
      | zero => exact h0
      | succ i' => rw [kneeStep_cons_succ]; exact hr i'
    | some c =>
      simp only [kneeOutcome] at hr ⊢
      obtain ⟨i, hi, hj⟩ := hr
      refine ⟨i + 1, ?_, ?_⟩
      · rw [kneeStep_cons_succ]; exact hi
      · intro j hjlt
        cases j with
        | zero => exact h0
        | succ j' => rw [kneeStep_cons_succ]; exact hj j' (by omega)

/-- One loop iteration of `detect_knee`, expressed through the
index-based step classification at index 0. -/
theorem detect_knee_head (c0 c1 : Int) (cs2 : List Int) (q0? q1? : Option ℚ)
    (qs2 : List (Option ℚ)) (p0? p1? : Option ℚ) (ps2 : List (Option ℚ)) :
    detect_knee (c0 :: c1 :: cs2) (q0? :: q1? :: qs2) (p0? :: p1? :: ps2) =
      match kneeStep (c0 :: c1 :: cs2) (q0? :: q1? :: qs2) (p0? :: p1? :: ps2) 0 with
      | .skip => detect_knee (c1 :: cs2) (q1? :: qs2) (p1? :: ps2)
      | .raise => .error .zeroDivision
      | .found c => .ok (some c) := by
  rcases q0? with _ | q0 <;> rcases q1? with _ | q1 <;>
    rcases p0? with _ | p0 <;> rcases p1? with _ | p1 <;>
    simp only [detect_knee, kneeStep, List.getElem?_cons_zero, List.getElem?_cons_succ]
  all_goals split_ifs <;> rfl

/-- C8 (amended): with equal-length inputs, the outcome of
`detect_knee` is decided by the first loop iteration that does not
skip — `conc[i]` at the smallest index whose pair passes the guards
and meets the knee conditions, `None` when every iteration skips, and
a `ZeroDivisionError` when the first non-skipping iteration has
`qps[i] = 0` (the division `(qps[i+1] - qps[i]) / qps[i]` has no zero
guard). -/
theorem detect_knee_characterization (cs : List Int) (qs ps : List (Option ℚ))
    (hq : qs.length = cs.length) (hp : ps.length = cs.length) :
    kneeOutcome cs qs ps (detect_knee cs qs ps) := by
  induction cs generalizing qs ps with
  | nil =>
    cases qs with
    | cons _ _ => simp at hq
    | nil =>
      cases ps with
      | cons _ _ => simp at hp
      | nil =>
        simp only [detect_knee, kneeOutcome]
        intro i
        simp [kneeStep]
  | cons c0 cs1 ih =>
    cases qs with
    | nil => simp at hq
    | cons q0? qs1 =>
      cases ps with
      | nil => simp at hp
      | cons p0? ps1 =>
        have hq1 : qs1.length = cs1.length := by simpa using hq
        have hp1 : ps1.length = cs1.length := by simpa using hp
        cases cs1 with
        | nil =>
          cases qs1 with
          | cons _ _ => simp at hq1
          | nil =>
            cases ps1 with
            | cons _ _ => simp at hp1
            | nil =>
              simp only [detect_knee, kneeOutcome]
              intro i
              cases i with
              | zero => simp [kneeStep]
              | succ i' => simp [kneeStep]
        | cons c1 cs2 =>
          cases qs1 with
          | nil => simp at hq1
          | cons q1? qs2 =>
            cases ps1 with
            | nil => simp at hp1
            | cons p1? ps2 =>
              have hrec := ih (q1? :: qs2) (p1? :: ps2) hq1 hp1
              rw [detect_knee_head]
              cases hstep : kneeStep (c0 :: c1 :: cs2) (q0? :: q1? :: qs2)
                  (p0? :: p1? :: ps2) 0 with
              | skip => exact kneeOutcome_cons _ _ _ _ _ _ _ hstep hrec
              | raise =>
                exact ⟨rfl, 0, hstep, fun j hj => absurd hj (Nat.not_lt_zero j)⟩
              | found c =>
                exact ⟨0, hstep, fun j hj => absurd hj (Nat.not_lt_zero j)⟩

/-- Witness for C8 (amended) at a concrete equal-length input whose
first pair fails the `None` guard. -/
theorem detect_knee_characterization_witness :
    kneeOutcome [1, 2] [none, some 1] [some 1, some 2]
      (detect_knee [1, 2] [none, some 1] [some 1, some 2]) :=
  detect_knee_characterization [1, 2] [none, some 1] [some 1, some 2] rfl rfl

/-- C8 counterexample: a pair that passes the `None`/zero guards with
`qps[i] = 0` makes `detect_knee` divide by zero — the function is not
total, contrary to the claim's "never divides by zero". -/
theorem detect_knee_zero_division :
    detect_knee [1, 2] [some 0, some 1] [some 1, some 2] = .error .zeroDivision := by
  decide

/-! ## Claim C2 — expression-table lookups in the AST validation scripts -/

/-- Every `core::vm` node of the input ends up in the vm-node list the
comprehension builds. -/
theorem filterVm_covers (ns : List NodeJ) (vms : List NodeJ) (h : filterVm ns = .ok vms) :
    ∀ n ∈ ns, n.op = some "core::vm" → n ∈ vms := by
  induction ns generalizing vms with
  | nil => intro n hn; cases hn
  | cons x xs ih =>
    simp only [filterVm] at h
    cases hop : x.op with
    | none => rw [hop] at h; simp [getOpt, Bind.bind, Except.bind] at h
    | some o =>
      rw [hop] at h
      simp only [getOpt, Bind.bind, Except.bind] at h
      cases hrec : filterVm xs with
      | error e => rw [hrec] at h; cases h
      | ok rest =>
        rw [hrec] at h
        dsimp only at h
        intro n hn hvm
        rcases List.mem_cons.mp hn with rfl | hn
        · rw [hop] at hvm
          injection hvm with hvm
          rw [if_pos (by simp [hvm])] at h
          cases h
          exact List.mem_cons_self _ _
        · have hmem := ih rest hrec n hn hvm
          by_cases ho : (o == "core::vm") = true
          · rw [if_pos ho] at h; cases h; exact List.mem_cons_of_mem _ hmem
          · rw [if_neg ho] at h; cases h; exact hmem

/-- Every node in the vm-node list contributes its `params.expr_id` to
the collected id list. -/
theorem collectEids_ok (vs : List NodeJ) (eids : List String) (h : collectEids vs = .ok eids) :
    ∀ v ∈ vs, ∃ ps eid, v.params = some ps ∧ ps.expr_id = some eid ∧ eid ∈ eids := by
  induction vs generalizing eids with
  | nil => intro v hv; cases hv
  | cons x xs ih =>
    simp only [collectEids] at h
    cases hps : x.params with
    | none => rw [hps] at h; simp [getOpt, Bind.bind, Except.bind] at h
    | some ps =>
      rw [hps] at h
      simp only [getOpt, Bind.bind, Except.bind] at h
      cases heid : ps.expr_id with
      | none => rw [heid] at h; cases h
      | some eid =>
        rw [heid] at h
        cases hrec : collectEids xs with
        | error e => rw [hrec] at h; cases h
        | ok rest =>
          rw [hrec] at h
          dsimp only at h
          cases h
          intro v hv
          rcases List.mem_cons.mp hv with rfl | hv
          · exact ⟨ps, eid, hps, heid, List.mem_cons_self _ _⟩
          · obtain ⟨ps', eid', h1, h2, h3⟩ := ih rest hrec v hv
            exact ⟨ps', eid', h1, h2, List.mem_cons_of_mem _ h3⟩

/-- C2 counterexample: `validate_ast_expr.py` accepts `danglingPlan`
and prints its success message even though the plan's second `core::vm`
node carries `params.expr_id = "e99"`, which is absent from
`expr_table` — so a vm node with a dangling `expr_id` is not rejected. -/
theorem ast_expr_dangling_counterexample :
    runAstExpr danglingPlan = .ok "Natural expression compilation validated" ∧
    danglingPlan.nodes = some [⟨some "core::vm", some ⟨some "e1"⟩⟩, danglingVmNode] ∧
    danglingVmNode.op = some "core::vm" ∧
    danglingVmNode.params = some ⟨some "e99"⟩ ∧
    danglingPlan.expr_table = some [("e1", mulExprJ)] ∧
    tblLookup [("e1", mulExprJ)] "e99" = none :=
  ⟨by decide, rfl, rfl, rfl, rfl, rfl⟩

/-- C2 (amended): a document accepted by `validate_ast_expr.py` has a
non-empty `expr_table` and its *first* `core::vm` node's
`params.expr_id` is a key of `expr_table` (later vm nodes are not
checked, as the counterexample shows); a document accepted by
`validate_mixed_expr.py` has an `expr_table` of at least two entries
and *every* `core::vm` node's `params.expr_id` is a key of
`expr_table`. -/
theorem expr_table_lookup_gate :
    (∀ (p : PlanDoc) (m : String), runAstExpr p = .ok m →
      ∃ tbl, p.expr_table = some tbl ∧ 1 ≤ tbl.length ∧
      ∃ ns, p.nodes = some ns ∧
      ∃ vm, findVmOpt ns = .ok (some vm) ∧
      ∃ ps eid, vm.params = some ps ∧ ps.expr_id = some eid ∧
        (tblLookup tbl eid).isSome = true) ∧
    (∀ (p : PlanDoc) (m : String), runMixedExpr p = .ok m →
      ∃ tbl, p.expr_table = some tbl ∧ 2 ≤ tbl.length ∧
      ∃ ns, p.nodes = some ns ∧
      ∀ n ∈ ns, n.op = some "core::vm" →
        ∃ ps eid, n.params = some ps ∧ ps.expr_id = some eid ∧
          (tblLookup tbl eid).isSome = true) := by
  constructor
  · intro p m h
    rcases p with ⟨tbl?, ns?⟩
    cases tbl? with
    | none => cases h
    | some tbl =>
      simp only [runAstExpr, ebind_ok_iff] at h
      obtain ⟨_, hlen, ns, hns, vm?, hvm, hrest⟩ := h
      cases vm? with
      | none => dsimp only at hrest; cases hrest
      | some vm =>
        dsimp only at hrest
        simp only [ebind_ok_iff] at hrest
        obtain ⟨ps, hps, eid, heid, _, hstart, _, hlook, _⟩ := hrest
        rw [getOpt_ok_iff] at hps heid hns
        rw [pyAssert_ok_iff] at hlen hlook
        exact ⟨tbl, rfl, by simpa using hlen, ns, hns, vm, hvm, ps, eid, hps, heid, hlook⟩
  · intro p m h
    rcases p with ⟨tbl?, ns?⟩
    cases tbl? with
    | none => cases h
    | some tbl =>
      simp only [runMixedExpr, ebind_ok_iff] at h
      obtain ⟨_, hlen, ns, hns, vms, hvms, _, hcnt, eids, heids, u3, hfor1, _⟩ := h
      cases u3
      rw [getOpt_ok_iff] at hns
      rw [pyAssert_ok_iff] at hlen
      refine ⟨tbl, rfl, by simpa using hlen, ns, hns, ?_⟩
      intro n hn hvm
      have hmem := filterVm_covers ns vms hvms n hn hvm
      obtain ⟨ps, eid, h1, h2, h3⟩ := collectEids_ok vms eids heids n hmem
      have hl := (forM_ok_iff _ eids).mp hfor1 eid h3
      rw [pyAssert_ok_iff] at hl
      exact ⟨ps, eid, h1, h2, hl⟩

/-- Witness for C2 (amended) at the two accepted plans. -/
theorem expr_table_lookup_gate_witness :
    (∃ tbl, danglingPlan.expr_table = some tbl ∧ 1 ≤ tbl.length ∧
      ∃ ns, danglingPlan.nodes = some ns ∧
      ∃ vm, findVmOpt ns = .ok (some vm) ∧
      ∃ ps eid, vm.params = some ps ∧ ps.expr_id = some eid ∧
        (tblLookup tbl eid).isSome = true) ∧
    (∃ tbl, mixedPlanGood.expr_table = some tbl ∧ 2 ≤ tbl.length ∧
      ∃ ns, mixedPlanGood.nodes = some ns ∧
      ∀ n ∈ ns, n.op = some "core::vm" →
        ∃ ps eid, n.params = some ps ∧ ps.expr_id = some eid ∧
          (tblLookup tbl eid).isSome = true) :=
  ⟨expr_table_lookup_gate.1 danglingPlan "Natural expression compilation validated" (by decide),
   expr_table_lookup_gate.2 mixedPlanGood
     "Mixed expression styles validated: both natural and builder-style work together"
     (by decide)⟩

/-! ## Claim C3 — validation scripts are pure and deterministic -/

/-- Frame property of `validate_writes_eval.py`: a successful run
returns the input document unchanged. -/
theorem runWritesEvalS_frame (d : WritesEvalDoc) (m : String) (d' : WritesEvalDoc)
    (h : runWritesEvalS d = .ok (m, d')) : d' = d := by
  rcases d with ⟨nodes?⟩
  cases nodes? with
  | none => cases h
  | some l =>
    simp only [runWritesEvalS, ebind_ok_iff, Except.ok.injEq, Prod.mk.injEq] at h
    repeat obtain ⟨_, _, h⟩ := h
    rfl

/-- Frame property of `validate_schema_deltas.py`: a successful run
returns the input document unchanged. -/
theorem runSchemaDeltasS_frame (d : DeltasDoc) (m : String) (d' : DeltasDoc)
    (h : runSchemaDeltasS d = .ok (m, d')) : d' = d := by
  rcases d with ⟨deltas?⟩
  cases deltas? with
  | none => cases h
  | some l =>
    simp only [runSchemaDeltasS, ebind_ok_iff, Except.ok.injEq, Prod.mk.injEq] at h
    repeat obtain ⟨_, _, h⟩ := h
    rfl

/-- C3: each validation script is a pure, deterministic function of its
input document — equal inputs give equal outcomes (same success
message or same error), and a successful run of the two state-carrying
scripts hands the document back unmodified; no other state exists in
the embedding. -/
theorem validation_scripts_pure :
    (∀ d₁ d₂ : WritesEvalDoc, d₁ = d₂ → runWritesEvalS d₁ = runWritesEvalS d₂) ∧
    (∀ d₁ d₂ : DeltasDoc, d₁ = d₂ → runSchemaDeltasS d₁ = runSchemaDeltasS d₂) ∧
    (∀ p₁ p₂ : PlanDoc, p₁ = p₂ →
      runAstExpr p₁ = runAstExpr p₂ ∧ runMixedExpr p₁ = runMixedExpr p₂) ∧
    (∀ (d : WritesEvalDoc) (m : String) (d' : WritesEvalDoc),
      runWritesEvalS d = .ok (m, d') → d' = d) ∧
    (∀ (d : DeltasDoc) (m : String) (d' : DeltasDoc),
      runSchemaDeltasS d = .ok (m, d') → d' = d) := by
  refine ⟨?_, ?_, ?_, runWritesEvalS_frame, runSchemaDeltasS_frame⟩
  · intro d₁ d₂ h; rw [h]
  · intro d₁ d₂ h; rw [h]
  · intro p₁ p₂ h; rw [h]; exact ⟨rfl, rfl⟩

/-- Witness for C3 at concrete documents: the accepted writes-eval and
schema-deltas documents come back unchanged from successful runs. -/
theorem validation_scripts_pure_witness :
    goodWritesDoc = goodWritesDoc ∧ goodDeltasDoc = goodDeltasDoc := by
  obtain ⟨_, _, _, h4, h5⟩ := validation_scripts_pure
  exact ⟨h4 goodWritesDoc "writes_eval validation passed" goodWritesDoc (by decide),
         h5 goodDeltasDoc "schema_deltas validation passed" goodDeltasDoc (by decide)⟩

/-! ## Claim C4 — collaborator script effect signatures -/

/-- C4 counterexample: `gen_positioning.py` is an out-of-scope
collaborator script, yet its chart data (`frameworks`, lines 11-17) is
hard-coded in the script text, not read from a file on disk supplied by
the caller — so not every collaborator script reads all of its input
data from a caller-supplied file. -/
theorem gen_positioning_hardcoded_input :
    genPositioningEffects ∈ collaboratorScripts ∧
    DataSource.hardcoded "frameworks" ∈ genPositioningEffects.dataSources ∧
    (DataSource.hardcoded "frameworks").isCallerFile = false := by decide

/-- C4 amended: every out-of-scope collaborator script (CSV-driven
plotting, the four JSON-schema-assertion validators, chart generation)
emits only image files or text; and every one of them except
`gen_positioning.py` reads all of its input data from a file on disk
supplied by the caller, while `gen_positioning.py` uses data hard-coded
in the script (and reads no input file at all). -/
theorem collaborator_scripts_effects :
    (∀ s ∈ collaboratorScripts, ∀ o ∈ s.outputs, o.isImageOrText = true) ∧
    (∀ s ∈ collaboratorScripts, s ≠ genPositioningEffects →
      ∀ ds ∈ s.dataSources, ds.isCallerFile = true) ∧
    (∀ ds ∈ genPositioningEffects.dataSources, ds.isCallerFile = false) := by
  decide

/-- Witness for C4 (amended) at concrete scripts: a chart emitted by
the plotting script is an image, and the schema-deltas validator's one
data source is the caller-supplied file. -/
theorem collaborator_scripts_effects_witness :
    (Artifact.imageFile "qps_vs_concurrency.png").isImageOrText = true ∧
    (DataSource.callerFile "sys.argv[1]").isCallerFile = true := by
  exact ⟨collaborator_scripts_effects.1 plotPerfSweepEffects (by decide)
           (Artifact.imageFile "qps_vs_concurrency.png") (by decide),
         collaborator_scripts_effects.2.1 validateSchemaDeltasEffects (by decide) (by decide)
           (DataSource.callerFile "sys.argv[1]") (by decide)⟩

end DagExec
